import Mathlib

/-!
Verification of the scalar constraint-translation core of protoc-gen-jsonschema
(internal/module/scalar.go) against its natural-language specification.

The Go source is shallowly embedded below: the JSON-schema node model and the
validation rule sets become Lean structures, the translators become pure
functions, the fatal error paths become `Except`, and the external collaborators
(the numeric translator, the Perl-dialect regex parser `syntax.Parse`, the
default textual rendering `Regexp.String()`, and the empty-string match probe
`regexp.MatchString`) become oracle function parameters.
-/

/-- String format annotations used by the jsonschema package
(jsonschema.StringFormatEmail and friends). -/
inductive StringFormat where
  | email
  | hostname
  | ipv4
  | ipv6
  | uri
  | uriReference
deriving DecidableEq, Repr

/-- A schema const value (jsonschema.Boolean / jsonschema.String wrappers). -/
inductive SchemaConst where
  | bool (b : Bool)
  | str (s : String)
deriving DecidableEq, Repr

/-- Scalar attributes of a JSON-schema node, as read and written by scalar.go:
Type, Title, Const, Enum, Pattern, MinLength, MaxLength, Format. -/
structure SchemaAttrs where
  type_ : Option String := none
  title : Option String := none
  const : Option SchemaConst := none
  enum : List String := []
  pattern : Option String := none
  minLength : Option Nat := none
  maxLength : Option Nat := none
  format : Option StringFormat := none
deriving DecidableEq, Repr

/-- A JSON-schema node: scalar attributes plus the composition operators
AllOf, AnyOf, OneOf and Not referencing child nodes. -/
inductive Schema where
  | mk (attrs : SchemaAttrs) (allOf : List Schema) (anyOf : List Schema)
      (oneOf : List Schema) (notChild : Option Schema)

namespace Schema

def attrs : Schema → SchemaAttrs
  | .mk a _ _ _ _ => a

def allOfChildren : Schema → List Schema
  | .mk _ x _ _ _ => x

def anyOfChildren : Schema → List Schema
  | .mk _ _ y _ _ => y

def oneOfChildren : Schema → List Schema
  | .mk _ _ _ z _ => z

def notChild : Schema → Option Schema
  | .mk _ _ _ _ n => n

/-- A node with the given attributes and no composition children. -/
def ofAttrs (a : SchemaAttrs) : Schema := .mk a [] [] [] none

/-- Updating the scalar attributes of a node in place (schema.Pattern = ...,
schema.Const = ... and similar assignments in scalar.go). -/
def withAttrs (s : Schema) (f : SchemaAttrs → SchemaAttrs) : Schema :=
  .mk (f s.attrs) s.allOfChildren s.anyOfChildren s.oneOfChildren s.notChild

/-- Modelled from the spec: setting the OneOf composition attribute of a node
(schema.OneOf = [...] in schemaForBytes). -/
def withOneOf (s : Schema) (children : List Schema) : Schema :=
  .mk s.attrs s.allOfChildren s.anyOfChildren children s.notChild

end Schema

namespace jsonschema

/-- Modelled from the spec: the jsonschema package's string-schema constructor
(internal/jsonschema, not under src/) returns a node whose type attribute is
string with everything else unset. -/
def NewStringSchema : Schema := Schema.ofAttrs { type_ := some "string" }

/-- Modelled from the spec: the boolean-schema constructor returns a node whose
type attribute is boolean with everything else unset. -/
def NewBooleanSchema : Schema := Schema.ofAttrs { type_ := some "boolean" }

/-- Modelled from the spec: conjunction of a list of child nodes (all must
hold simultaneously). -/
def AllOf (schemas : List Schema) : Schema := .mk {} schemas [] [] none

/-- Modelled from the spec: disjunction of a list of child nodes. -/
def AnyOf (schemas : List Schema) : Schema := .mk {} [] schemas [] none

/-- Modelled from the spec: negation of a child node. -/
def Not (schema : Schema) : Schema := .mk {} [] [] [] (some schema)

end jsonschema

/-- validate.BoolRules: the bool rule set (only Const is read by the code). -/
structure BoolRules where
  Const : Option Bool := none
deriving DecidableEq, Repr

/-- The well-known-format variants of validate.BytesRules (ip, ipv4, ipv6). -/
inductive BytesWellKnown where
  | ip
  | ipv4
  | ipv6
deriving DecidableEq, Repr

/-- validate.BytesRules: the bytes rule set. Byte strings are lists of bytes
(values as Nat); proto3 bytes fields conflate absent and empty, exactly as the
Go code's len(...) > 0 tests do. -/
structure BytesRules where
  Const : List Nat := []
  Len : Option Nat := none
  MinLen : Option Nat := none
  MaxLen : Option Nat := none
  Pattern : Option String := none
  Prefix_ : List Nat := []
  Suffix : List Nat := []
  Contains : List Nat := []
  In : List (List Nat) := []
  NotIn : List (List Nat) := []
  WellKnown : Option BytesWellKnown := none
deriving DecidableEq, Repr

/-- The well-known-format variants of validate.StringRules handled by the
switch in schemaForString. -/
inductive StringWellKnown where
  | address
  | email
  | hostname
  | ip
  | ipv4
  | ipv6
  | uri
  | uriRef
deriving DecidableEq, Repr

/-- validate.StringRules: the string rule set. Pointer-typed optional fields
become Option values (presence, not non-emptiness); repeated fields become
lists tested for non-emptiness, as in the Go code. -/
structure StringRules where
  Const : Option String := none
  Len : Option Nat := none
  MinLen : Option Nat := none
  MaxLen : Option Nat := none
  LenBytes : Option Nat := none
  MinBytes : Option Nat := none
  MaxBytes : Option Nat := none
  Pattern : Option String := none
  Prefix_ : Option String := none
  Suffix : Option String := none
  Contains : Option String := none
  NotContains : Option String := none
  In : List String := []
  NotIn : List String := []
  WellKnown : Option StringWellKnown := none
deriving DecidableEq, Repr

/-- The oneof rule-kind payload of validate.FieldConstraints; numeric and
other rule kinds are collapsed into otherRules since only the three scalar
kinds are read by this core. -/
inductive RulesKind where
  | boolRules (r : BoolRules)
  | bytesRules (r : BytesRules)
  | stringRules (r : StringRules)
  | otherRules
deriving Repr

/-- validate.FieldConstraints: the ignore-empty flag plus the oneof rule set. -/
structure FieldConstraints where
  IgnoreEmpty : Bool := false
  Rules : Option RulesKind := none
deriving Repr

/-- constraints.GetBool(): nil-safe access to the bool rule set. -/
def getBoolRules : Option FieldConstraints → Option BoolRules
  | some { Rules := some (.boolRules r), .. } => some r
  | _ => none

/-- constraints.GetBytes(): nil-safe access to the bytes rule set. -/
def getBytesRules : Option FieldConstraints → Option BytesRules
  | some { Rules := some (.bytesRules r), .. } => some r
  | _ => none

/-- constraints.GetString_(): nil-safe access to the string rule set. -/
def getStringRules : Option FieldConstraints → Option StringRules
  | some { Rules := some (.stringRules r), .. } => some r
  | _ => none

/-- pgs.ProtoType: the protobuf scalar kind enumeration. -/
inductive ProtoType where
  | doubleT
  | floatT
  | int64T
  | uint64T
  | int32T
  | fixed64T
  | fixed32T
  | boolT
  | stringT
  | groupT
  | messageT
  | bytesT
  | uint32T
  | enumT
  | sfixed32T
  | sfixed64T
  | sint32T
  | sint64T
deriving DecidableEq, Repr

/-- pgs.ProtoType.IsNumeric(): true for the twelve numeric protobuf kinds. -/
def ProtoType.isNumeric : ProtoType → Bool
  | .doubleT | .floatT | .int64T | .uint64T | .int32T | .fixed64T
  | .fixed32T | .uint32T | .sfixed32T | .sfixed64T | .sint32T | .sint64T => true
  | _ => false

/-- regexp/syntax Op: the operator tags of the Go regexp syntax tree, in
declaration order (OpNoMatch = 1, iota onward), which is the order used by
the rewriter's Op comparison. -/
inductive Op where
  | opNoMatch
  | opEmptyMatch
  | opLiteral
  | opCharClass
  | opAnyCharNotNL
  | opAnyChar
  | opBeginLine
  | opEndLine
  | opBeginText
  | opEndText
  | opWordBoundary
  | opNoWordBoundary
  | opCapture
  | opStar
  | opPlus
  | opQuest
  | opRepeat
  | opConcat
  | opAlternate
deriving DecidableEq, Repr

/-- The numeric value of each Op constant (1 + iota in regexp/syntax). -/
def Op.num : Op → Nat
  | .opNoMatch => 1
  | .opEmptyMatch => 2
  | .opLiteral => 3
  | .opCharClass => 4
  | .opAnyCharNotNL => 5
  | .opAnyChar => 6
  | .opBeginLine => 7
  | .opEndLine => 8
  | .opBeginText => 9
  | .opEndText => 10
  | .opWordBoundary => 11
  | .opNoWordBoundary => 12
  | .opCapture => 13
  | .opStar => 14
  | .opPlus => 15
  | .opQuest => 16
  | .opRepeat => 17
  | .opConcat => 18
  | .opAlternate => 19

/-- syntax.Regexp: the parsed regex syntax tree. Each Go node carries an Op
tag plus Sub/Rune/Min/Max fields; here each operator is a constructor carrying
the fields it uses (Min/Max are Go ints, Max < 0 meaning unbounded). -/
inductive Regexp where
  | noMatch
  | emptyMatch
  | literal (runes : List Char)
  | charClass (runes : List Char)
  | anyCharNotNL
  | anyChar
  | beginLine
  | endLine
  | beginText
  | endText
  | wordBoundary
  | noWordBoundary
  | capture (sub : Regexp)
  | star (sub : Regexp)
  | plus (sub : Regexp)
  | quest (sub : Regexp)
  | repeat_ (min max : Int) (sub : Regexp)
  | concat (subs : List Regexp)
  | alternate (subs : List Regexp)

/-- The Op tag of a node (expression.Op in Go). -/
def Regexp.op : Regexp → Op
  | .noMatch => .opNoMatch
  | .emptyMatch => .opEmptyMatch
  | .literal _ => .opLiteral
  | .charClass _ => .opCharClass
  | .anyCharNotNL => .opAnyCharNotNL
  | .anyChar => .opAnyChar
  | .beginLine => .opBeginLine
  | .endLine => .opEndLine
  | .beginText => .opBeginText
  | .endText => .opEndText
  | .wordBoundary => .opWordBoundary
  | .noWordBoundary => .opNoWordBoundary
  | .capture _ => .opCapture
  | .star _ => .opStar
  | .plus _ => .opPlus
  | .quest _ => .opQuest
  | .repeat_ _ _ _ => .opRepeat
  | .concat _ => .opConcat
  | .alternate _ => .opAlternate

/-- The Rune field of a node (expression.Rune in Go); empty for operators that
carry no rune data. -/
def Regexp.runes : Regexp → List Char
  | .literal rs => rs
  | .charClass rs => rs
  | _ => []

/-- The rewriter's grouping test for quantified subexpressions
(scalar.go line 246): subexpression.Op > syntax.OpCapture or a literal run
longer than one rune. -/
def wrapNeeded (sub : Regexp) : Bool :=
  decide (Op.num sub.op > Op.num .opCapture) ||
    (sub.op == .opLiteral && decide (sub.runes.length > 1))

/-- Wrapping the rendered quantified child in a non-capturing group when
wrapNeeded holds (scalar.go lines 246-252). -/
def quantWrap (sub : Regexp) (rendered : String) : String :=
  if wrapNeeded sub then "(?:" ++ rendered ++ ")" else rendered

/-- The bounded-repeat quantifier text (scalar.go lines 264-273): min first,
then a comma and the max (the max omitted when negative) only when max
differs from min. -/
def repeatQuant (min max : Int) : String :=
  "\x7b" ++ toString min ++
    (if max ≠ min then "," ++ (if max ≥ 0 then toString max else "") else "") ++
    "\x7d"

mutual

/-- writeECMAScriptCompatibleRegexp (scalar.go lines 230-296): recursive
rewrite of the parsed tree into an ECMAScript-compatible pattern string.
Operators not handled by the switch fall back to the source dialect's own
textual rendering, supplied as the oracle fb (expression.String() in Go). -/
def writeECMA (fb : Regexp → String) : Regexp → String
  | .noMatch => fb .noMatch
  | .emptyMatch => fb .emptyMatch
  | .literal rs => fb (.literal rs)
  | .charClass rs => fb (.charClass rs)
  | .anyCharNotNL => "."
  | .anyChar => "[\\s\\S]"
  | .beginLine => "^"
  | .beginText => "^"
  | .endLine => "$"
  | .endText => "$"
  | .wordBoundary => fb .wordBoundary
  | .noWordBoundary => fb .noWordBoundary
  | .capture sub => "(" ++ writeECMA fb sub ++ ")"
  | .star sub => quantWrap sub (writeECMA fb sub) ++ "*"
  | .plus sub => quantWrap sub (writeECMA fb sub) ++ "+"
  | .quest sub => quantWrap sub (writeECMA fb sub) ++ "?"
  | .repeat_ mn mx sub => quantWrap sub (writeECMA fb sub) ++ repeatQuant mn mx
  | .concat subs => writeConcatList fb subs
  | .alternate subs => writeAltList fb subs

/-- The OpConcat loop (scalar.go lines 276-285): each child rendered in
sequence, alternation children wrapped in a non-capturing group. -/
def writeConcatList (fb : Regexp → String) : List Regexp → String
  | [] => ""
  | sub :: rest =>
    (if sub.op == .opAlternate then "(?:" ++ writeECMA fb sub ++ ")"
     else writeECMA fb sub) ++ writeConcatList fb rest

/-- The OpAlternate loop (scalar.go lines 286-292): children joined by the
pipe separator. -/
def writeAltList (fb : Regexp → String) : List Regexp → String
  | [] => ""
  | [sub] => writeECMA fb sub
  | sub :: rest => writeECMA fb sub ++ "|" ++ writeAltList fb rest

end

/-- The metacharacters escaped by Go's regexp.QuoteMeta. -/
def regexpSpecialChars : List Char :=
  ['\\', '.', '+', '*', '?', '(', ')', '|', '[', ']', '\x7b', '\x7d', '^', '$']

/-- regexp.QuoteMeta: a backslash inserted before every metacharacter. -/
def quoteMeta (s : String) : String :=
  ⟨s.data.foldr
    (fun c acc => if c ∈ regexpSpecialChars then '\\' :: c :: acc else c :: acc)
    []⟩

/-- A fresh string schema carrying only a pattern, as built for NotContains
and for the multi-pattern merge in schemaForString. -/
def patternSchema (p : String) : Schema :=
  jsonschema.NewStringSchema.withAttrs (fun a => { a with pattern := some p })

/-- schemaForStringFormats (scalar.go lines 207-218): a disjunction of
format-annotated string schemas. -/
def schemaForStringFormats (formats : List StringFormat) : Schema :=
  jsonschema.AnyOf (formats.map
    (fun f => jsonschema.NewStringSchema.withAttrs (fun a => { a with format := some f })))

/-- The accumulator state threaded through schemaForString's rule blocks:
the base schema's attributes (the base node never gains composition
children during the scan), the extra composed fragments appended to the
schemas slice after the base, the collected pattern fragments, and the
required flag. -/
structure ScanSt where
  base : SchemaAttrs
  extras : List Schema
  patterns : List String
  required : Bool

/-- The state at the top of schemaForString: a fresh string schema, the
schemas slice holding just the base, no patterns, required false. -/
def initScan : ScanSt :=
  { base := { type_ := some "string" }, extras := [], patterns := [], required := false }

/-- The Const block (scalar.go lines 100-103). -/
def stConst (r : StringRules) (ie : Bool) (st : ScanSt) : ScanSt :=
  match r.Const with
  | none => st
  | some v => { st with base := { st.base with const := some (.str v) }, required := !ie }

/-- The Contains block (scalar.go lines 105-108): presence-triggered. -/
def stContains (r : StringRules) (ie : Bool) (st : ScanSt) : ScanSt :=
  match r.Contains with
  | none => st
  | some v => { st with patterns := st.patterns ++ [quoteMeta v], required := !ie }

/-- The In block (scalar.go lines 110-113): non-emptiness-triggered. -/
def stIn (r : StringRules) (ie : Bool) (st : ScanSt) : ScanSt :=
  match r.In with
  | [] => st
  | _ => { st with base := { st.base with enum := r.In }, required := !ie }

/-- The Len block (scalar.go lines 115-119). -/
def stLen (r : StringRules) (ie : Bool) (st : ScanSt) : ScanSt :=
  match r.Len with
  | none => st
  | some l =>
    { st with base := { st.base with maxLength := some l, minLength := some l },
              required := !ie }

/-- The LenBytes / MinBytes block (scalar.go lines 121-123): required only,
no schema effect. -/
def stLenBytes (r : StringRules) (ie : Bool) (st : ScanSt) : ScanSt :=
  if r.LenBytes.isSome || r.MinBytes.isSome then { st with required := !ie } else st

/-- The MaxLen block (scalar.go lines 125-127): no required effect. -/
def stMaxLen (r : StringRules) (st : ScanSt) : ScanSt :=
  match r.MaxLen with
  | none => st
  | some v => { st with base := { st.base with maxLength := some v } }

/-- The MinLen block (scalar.go lines 129-132). -/
def stMinLen (r : StringRules) (ie : Bool) (st : ScanSt) : ScanSt :=
  match r.MinLen with
  | none => st
  | some v => { st with base := { st.base with minLength := some v }, required := !ie }

/-- The NotContains block (scalar.go lines 134-138): appends a negated
pattern schema, no required effect. -/
def stNotContains (r : StringRules) (st : ScanSt) : ScanSt :=
  match r.NotContains with
  | none => st
  | some v => { st with extras := st.extras ++ [jsonschema.Not (patternSchema (quoteMeta v))] }

/-- The NotIn block (scalar.go lines 140-144): appends a negated enum schema,
no required effect. -/
def stNotIn (r : StringRules) (st : ScanSt) : ScanSt :=
  match r.NotIn with
  | [] => st
  | _ =>
    { st with extras := st.extras ++
        [jsonschema.Not (jsonschema.NewStringSchema.withAttrs
          (fun a => { a with enum := r.NotIn }))] }

/-- The Pattern block (scalar.go lines 146-151) applied after the oracles
succeeded: the rewritten fragment is appended, and required is set only when
the pattern does not match the empty string. -/
def stPattern (frag : String) (matchesEmpty : Bool) (ie : Bool) (st : ScanSt) : ScanSt :=
  { st with patterns := st.patterns ++ [frag],
            required := if matchesEmpty then st.required else !ie }

/-- The Prefix block (scalar.go lines 153-156): presence-triggered. -/
def stPfx (r : StringRules) (ie : Bool) (st : ScanSt) : ScanSt :=
  match r.Prefix_ with
  | none => st
  | some v => { st with patterns := st.patterns ++ ["^" ++ quoteMeta v], required := !ie }

/-- The Suffix block (scalar.go lines 158-161): presence-triggered. -/
def stSuffix (r : StringRules) (ie : Bool) (st : ScanSt) : ScanSt :=
  match r.Suffix with
  | none => st
  | some v => { st with patterns := st.patterns ++ [quoteMeta v ++ "$"], required := !ie }

/-- The WellKnown block (scalar.go lines 163-191): the switch sets a format
or appends a disjunction of formats, and required is set for any present
variant. -/
def stWellKnown (r : StringRules) (ie : Bool) (st : ScanSt) : ScanSt :=
  match r.WellKnown with
  | none => st
  | some wk =>
    let st1 :=
      match wk with
      | .address =>
        { st with extras := st.extras ++ [schemaForStringFormats [.hostname, .ipv4, .ipv6]] }
      | .email => { st with base := { st.base with format := some .email } }
      | .hostname => { st with base := { st.base with format := some .hostname } }
      | .ip =>
        { st with extras := st.extras ++ [schemaForStringFormats [.ipv4, .ipv6]] }
      | .ipv4 => { st with base := { st.base with format := some .ipv4 } }
      | .ipv6 => { st with base := { st.base with format := some .ipv6 } }
      | .uri => { st with base := { st.base with format := some .uri } }
      | .uriRef => { st with base := { st.base with format := some .uriReference } }
    { st1 with required := !ie }

/-- The rule blocks before the Pattern block, in source order (Const,
Contains, In, Len, LenBytes/MinBytes, MaxLen, MinLen, NotContains, NotIn). -/
def stringScanPre (r : StringRules) (ie : Bool) (st : ScanSt) : ScanSt :=
  stNotIn r (stNotContains r (stMinLen r ie (stMaxLen r (stLenBytes r ie
    (stLen r ie (stIn r ie (stContains r ie (stConst r ie st))))))))

/-- The rule blocks after the Pattern block, in source order (Prefix, Suffix,
WellKnown). -/
def stringScanPost (r : StringRules) (ie : Bool) (st : ScanSt) : ScanSt :=
  stWellKnown r ie (stSuffix r ie (stPfx r ie st))

/-- The pattern-fragment merge and final conjunction (scalar.go lines
194-204): a single fragment becomes the base schema's pattern; otherwise each
fragment becomes its own pattern schema appended after the extras. -/
def mergeSchemas (st : ScanSt) : Schema × Bool :=
  match st.patterns with
  | [p] =>
    (jsonschema.AllOf (Schema.ofAttrs { st.base with pattern := some p } :: st.extras),
      st.required)
  | ps =>
    (jsonschema.AllOf (Schema.ofAttrs st.base :: (st.extras ++ ps.map patternSchema)),
      st.required)

/-- schemaForString (scalar.go lines 91-205). The oracles: parse is
syntax.Parse under the Perl dialect (none meaning a parse error), fb is the
source dialect's default rendering used by the rewriter's fallback, and probe
is regexp.MatchString against the empty string (none meaning the probe
errored). Either oracle failure aborts the call, mirroring m.CheckErr. -/
def schemaForString (parse : String → Option Regexp) (fb : Regexp → String)
    (probe : String → Option Bool) (rules : Option StringRules)
    (ignoreEmpty : Bool) : Except String (Schema × Bool) :=
  match rules with
  | none => .ok (mergeSchemas initScan)
  | some r =>
    let st1 := stringScanPre r ignoreEmpty initScan
    match r.Pattern with
    | none => .ok (mergeSchemas (stringScanPost r ignoreEmpty st1))
    | some p =>
      match parse p with
      | none => .error "failed to parse regular expression"
      | some t =>
        match probe p with
        | none => .error "failed to check if pattern matches empty string"
        | some m =>
          .ok (mergeSchemas (stringScanPost r ignoreEmpty
            (stPattern (writeECMA fb t) m ignoreEmpty st1)))

/-- The required flag of a translation result; false on the error path, which
produces no output at all. -/
def requiredOfE : Except String (Schema × Bool) → Bool
  | .ok (_, b) => b
  | .error _ => false

/-- schemaForBool (scalar.go lines 46-59): boolean-typed schema; a Const rule
sets the const value and makes the field required. -/
def schemaForBool (rules : Option BoolRules) : Schema × Bool :=
  match rules with
  | none => (jsonschema.NewBooleanSchema, false)
  | some r =>
    match r.Const with
    | none => (jsonschema.NewBooleanSchema, false)
    | some b =>
      (jsonschema.NewBooleanSchema.withAttrs
        (fun a => { a with const := some (.bool b) }), true)

/-- schemaForBytes (scalar.go lines 61-89): a string-typed schema whose OneOf
holds the two base64-alphabet pattern schemas; required is forced by the
listed presence tests unless ignoreEmpty is set. -/
def schemaForBytes (rules : Option BytesRules) (ignoreEmpty : Bool) :
    Schema × Bool :=
  let standard := (jsonschema.NewStringSchema.withAttrs
    (fun a => { a with title := some "Standard base64 encoding",
                       pattern := some "^[\\r\\nA-Za-z0-9+/]*$" }))
  let urlSafe := (jsonschema.NewStringSchema.withAttrs
    (fun a => { a with title := some "URL-safe base64 encoding",
                       pattern := some "^[\\r\\nA-Za-z0-9_-]*$" }))
  let schema := jsonschema.NewStringSchema.withOneOf [standard, urlSafe]
  let required :=
    match rules with
    | none => false
    | some r =>
      !ignoreEmpty &&
        (!r.Const.isEmpty ||
          !r.Contains.isEmpty ||
          !r.In.isEmpty ||
          r.MinLen.isSome ||
          r.Pattern.isSome ||
          !r.Prefix_.isEmpty ||
          !r.Suffix.isEmpty ||
          r.WellKnown.isSome)
  (schema, required)

/-- schemaForScalar (scalar.go lines 19-44): numeric kinds delegate to the
external numeric translator (the numeric oracle); Bool, Bytes and String
route to their translators with ignoreEmpty taken from the rule set (false
when the rule set is nil); any other kind is fatal. -/
def schemaForScalar (numeric : ProtoType → Option FieldConstraints → Schema × Bool)
    (parse : String → Option Regexp) (fb : Regexp → String)
    (probe : String → Option Bool) (scalar : ProtoType)
    (constraints : Option FieldConstraints) : Except String (Schema × Bool) :=
  if scalar.isNumeric then .ok (numeric scalar constraints)
  else
    let ignoreEmpty :=
      match constraints with
      | none => false
      | some c => c.IgnoreEmpty
    match scalar with
    | .boolT => .ok (schemaForBool (getBoolRules constraints))
    | .bytesT => .ok (schemaForBytes (getBytesRules constraints) ignoreEmpty)
    | .stringT => schemaForString parse fb probe (getStringRules constraints) ignoreEmpty
    | s => .error ("unexpected scalar type " ++ reprStr s)

/-- Whether a translation call returned a (SchemaNode, RequiredFlag) pair
rather than aborting. -/
def isOkE : Except String (Schema × Bool) → Bool
  | .ok _ => true
  | .error _ => false

/-- A concrete fallback-rendering oracle used in witnesses: literal runs
render as their text, other fallback operators as the empty string. -/
def litFallback : Regexp → String
  | .literal rs => String.mk rs
  | _ => ""

/-- The rewritten pattern text produced for a Pattern rule: the parsed tree
rendered by the rewriter (unused junk value when the parse oracle fails,
since that path aborts instead). -/
def rewriteOf (parse : String → Option Regexp) (fb : Regexp → String)
    (p : String) : String :=
  match parse p with
  | some t => writeECMA fb t
  | none => ""

/-- The fragment list contributed by an optional rule. -/
def optFrag (f : String → String) : Option String → List String
  | none => []
  | some v => [f v]

/-- Specification view of the pattern fragments collected by the string
translator, in collection order: Contains, Pattern, Prefix, Suffix. -/
def patternsOf (rw : String → String) (r : StringRules) : List String :=
  optFrag quoteMeta r.Contains ++ optFrag rw r.Pattern ++
    optFrag (fun v => "^" ++ quoteMeta v) r.Prefix_ ++
    optFrag (fun v => quoteMeta v ++ "$") r.Suffix

/-- How the WellKnown switch updates the base schema's format attribute:
the six single-format variants set it, Address / IP / absence leave it. -/
def wkFormatUpd : Option StringWellKnown → Option StringFormat → Option StringFormat
  | some .email, _ => some .email
  | some .hostname, _ => some .hostname
  | some .ipv4, _ => some .ipv4
  | some .ipv6, _ => some .ipv6
  | some .uri, _ => some .uri
  | some .uriRef, _ => some .uriReference
  | some .address, old => old
  | some .ip, old => old
  | none, old => old

/-- The composed fragments appended by the WellKnown switch: disjunctions of
formats for Address and IP, nothing otherwise. -/
def wkExtras : Option StringWellKnown → List Schema
  | some .address => [schemaForStringFormats [.hostname, .ipv4, .ipv6]]
  | some .ip => [schemaForStringFormats [.ipv4, .ipv6]]
  | _ => []

/-- The negated enum fragment appended by the NotIn block. -/
def notInSchema (r : StringRules) : Schema :=
  jsonschema.Not (jsonschema.NewStringSchema.withAttrs
    (fun a => { a with enum := r.NotIn }))

/-- Specification view of the base schema attributes after the blocks before
Pattern: Const, Enum and the length bounds, with MinLen/MaxLen overriding
what Len set. -/
def preBase (r : StringRules) : SchemaAttrs :=
  { type_ := some "string",
    const := r.Const.map SchemaConst.str,
    enum := r.In,
    minLength := match r.MinLen with | some v => some v | none => r.Len,
    maxLength := match r.MaxLen with | some v => some v | none => r.Len }

/-- Specification view of the final base schema attributes (before the
pattern merge): preBase plus the format contributed by WellKnown. -/
def baseView (r : StringRules) : SchemaAttrs :=
  { preBase r with format := wkFormatUpd r.WellKnown none }

/-- Specification view of the extra fragments appended before Pattern:
the NotContains negation then the NotIn negation. -/
def preExtras (r : StringRules) : List Schema :=
  (match r.NotContains with
   | none => []
   | some v => [jsonschema.Not (patternSchema (quoteMeta v))]) ++
  (match r.NotIn with
   | [] => []
   | _ => [notInSchema r])

/-- Specification view of all extra composed fragments, in append order. -/
def extrasView (r : StringRules) : List Schema :=
  preExtras r ++ wkExtras r.WellKnown

/-- Whether any block before Pattern forces the required flag. -/
def preReq (r : StringRules) : Bool :=
  r.Const.isSome || r.Contains.isSome || !r.In.isEmpty || r.Len.isSome ||
    r.LenBytes.isSome || r.MinBytes.isSome || r.MinLen.isSome

/-- The claim's wrapping condition for quantified children: an operator of
higher structural rank than a capture group (spelled out as the operator
enumeration above capture), or a literal run of more than one character. -/
def claimWrapCond (sub : Regexp) : Bool :=
  (match sub.op with
   | .opStar | .opPlus | .opQuest | .opRepeat | .opConcat | .opAlternate => true
   | _ => false) ||
  (match sub with
   | .literal rs => decide (rs.length > 1)
   | _ => false)

/-- The claim's failure condition for TranslateScalarConstraints: an
unrecognized kind, or a string Pattern rule whose parse or empty-match probe
fails. -/
def scalarFailCond (parse : String → Option Regexp) (probe : String → Option Bool)
    (scalar : ProtoType) (constraints : Option FieldConstraints) : Bool :=
  (!scalar.isNumeric &&
    !(scalar == .boolT || scalar == .bytesT || scalar == .stringT)) ||
  (scalar == .stringT &&
    (match getStringRules constraints with
     | some r =>
       match r.Pattern with
       | some p => (parse p).isNone || (probe p).isNone
       | none => false
     | none => false))

/-! Characterization lemmas for the string translator's scan state. -/

theorem mergeSchemas_required (st : ScanSt) : (mergeSchemas st).2 = st.required := by
  unfold mergeSchemas
  split <;> rfl

theorem stringScanPre_eq (r : StringRules) (ie : Bool) :
    stringScanPre r ie initScan =
      { base := preBase r, extras := preExtras r,
        patterns := optFrag quoteMeta r.Contains,
        required := !ie && preReq r } := by
  obtain ⟨C, L, MnL, MxL, LB, MB, MxB, P, Pf, Sf, Co, NC, I, NI, WK⟩ := r
  cases ie <;> cases C <;> cases Co <;> cases I <;> cases L <;> cases LB <;>
    cases MB <;> cases MxL <;> cases MnL <;> cases NC <;> cases NI <;> rfl

theorem stringScanPost_eq (r : StringRules) (ie : Bool) (st : ScanSt) :
    stringScanPost r ie st =
      { base := { st.base with format := wkFormatUpd r.WellKnown st.base.format },
        extras := st.extras ++ wkExtras r.WellKnown,
        patterns := st.patterns ++ optFrag (fun v => "^" ++ quoteMeta v) r.Prefix_ ++
          optFrag (fun v => quoteMeta v ++ "$") r.Suffix,
        required :=
          if r.Prefix_.isSome || r.Suffix.isSome || r.WellKnown.isSome then !ie
          else st.required } := by
  obtain ⟨C, L, MnL, MxL, LB, MB, MxB, P, Pf, Sf, Co, NC, I, NI, WK⟩ := r
  rcases WK with _ | wk
  · cases Pf <;> cases Sf <;>
      simp [stringScanPost, stPfx, stSuffix, stWellKnown, optFrag, wkExtras, wkFormatUpd]
  · cases Pf <;> cases Sf <;> cases wk <;>
      simp [stringScanPost, stPfx, stSuffix, stWellKnown, optFrag, wkExtras, wkFormatUpd]

/-! Claim theorems. -/

/-- C2: for every bytes rule set and every ignore-empty value, the bytes
translator returns a string-typed schema whose disjunction (OneOf) holds
exactly two string-typed schemas, one carrying the anchored standard-base64
pattern and one carrying the anchored URL-safe pattern; the shape does not
depend on which rules are present. -/
theorem schemaForBytes_base64_disjunction (rules : Option BytesRules) (ie : Bool) :
    (schemaForBytes rules ie).1 =
      Schema.mk { type_ := some "string" } [] []
        [Schema.ofAttrs { type_ := some "string",
                          title := some "Standard base64 encoding",
                          pattern := some "^[\\r\\nA-Za-z0-9+/]*$" },
         Schema.ofAttrs { type_ := some "string",
                          title := some "URL-safe base64 encoding",
                          pattern := some "^[\\r\\nA-Za-z0-9_-]*$" }] none := rfl

/-- C5: the bytes translator's required flag is true exactly when ignore-empty
is false and one of the listed rules is present (non-empty Const, non-empty
Contains, non-empty In, MinLen, Pattern, non-empty Prefix, non-empty Suffix,
or a well-known-format rule); in particular a rule set carrying only the
upper bounds MaxLen and the byte-length rule Len never forces required. -/
theorem schemaForBytes_required_iff :
    (∀ (r : BytesRules) (ie : Bool),
      ((schemaForBytes (some r) ie).2 = true ↔
        (ie = false ∧
          (r.Const ≠ [] ∨ r.Contains ≠ [] ∨ r.In ≠ [] ∨ r.MinLen.isSome = true ∨
            r.Pattern.isSome = true ∨ r.Prefix_ ≠ [] ∨ r.Suffix ≠ [] ∨
            r.WellKnown.isSome = true)))) ∧
    (∀ (maxLen len : Option Nat) (ie : Bool),
      (schemaForBytes (some { MaxLen := maxLen, Len := len }) ie).2 = false) := by
  constructor
  · intro r ie
    simp [schemaForBytes, Bool.and_eq_true, Bool.or_eq_true, Bool.not_eq_true',
      List.isEmpty_iff, Bool.not_eq_true, ne_eq]
    tauto
  · intro maxLen len ie
    cases ie <;> rfl

/-- C1 counterexample: a rule set with ignore-empty set to true whose bool
rules carry Const still translates with required = true, because the boolean
translator never consults the ignore-empty flag; the claim predicts
required = false for the boolean translator as well. -/
theorem ignoreEmpty_bool_counterexample :
    schemaForScalar (fun _ _ => (jsonschema.NewBooleanSchema, false)) (fun _ => none)
      (fun _ => "") (fun _ => none) .boolT
      (some { IgnoreEmpty := true, Rules := some (.boolRules { Const := some true }) }) =
      .ok (Schema.ofAttrs { type_ := some "boolean", const := some (.bool true) }, true) := rfl

/-- C1 (amended): for every rule set with ignore-empty true, the required
flag returned by the bytes and string translators is false regardless of
which rules are present; the boolean translator is exempt, since it ignores
the flag and a Const rule forces required = true. -/
theorem ignoreEmpty_suppresses_required :
    (∀ rules : Option BytesRules, (schemaForBytes rules true).2 = false) ∧
    (∀ (parse : String → Option Regexp) (fb : Regexp → String)
        (probe : String → Option Bool) (rules : Option StringRules),
      requiredOfE (schemaForString parse fb probe rules true) = false) ∧
    (∀ b : Bool, (schemaForBool (some { Const := some b })).2 = true) := by
  refine ⟨?_, ?_, ?_⟩
  · intro rules
    cases rules <;> rfl
  · intro parse fb probe rules
    cases rules with
    | none => rfl
    | some r =>
      cases hp : r.Pattern with
      | none =>
        simp [schemaForString, hp, requiredOfE, mergeSchemas_required,
          stringScanPost_eq, stringScanPre_eq]
      | some p =>
        cases hparse : parse p with
        | none => simp [schemaForString, hp, hparse, requiredOfE]
        | some t =>
          cases hprobe : probe p with
          | none => simp [schemaForString, hp, hparse, hprobe, requiredOfE]
          | some m =>
            simp [schemaForString, hp, hparse, hprobe, requiredOfE,
              mergeSchemas_required, stringScanPost_eq, stringScanPre_eq, stPattern]
  · intro b
    rfl

/-- C3: for a string rule set whose sole rule is Pattern = p, when the
empty-match oracle (the source dialect engine run against the empty string)
reports that p matches the empty string, the translator returns required =
false, for every value of ignore-empty. -/
theorem pattern_matching_empty_not_required (parse : String → Option Regexp)
    (fb : Regexp → String) (probe : String → Option Bool) (p : String)
    (t : Regexp) (ie : Bool) (hp : parse p = some t) (hm : probe p = some true) :
    schemaForString parse fb probe (some { Pattern := some p }) ie =
      .ok (jsonschema.AllOf
        [Schema.ofAttrs { type_ := some "string", pattern := some (writeECMA fb t) }],
        false) := by
  simp [schemaForString, hp, hm, stringScanPre, stringScanPost, stConst, stContains,
    stIn, stLen, stLenBytes, stMaxLen, stMinLen, stNotContains, stNotIn, stPfx,
    stSuffix, stWellKnown, stPattern, initScan, mergeSchemas]

/-- Witness for C3 at a concrete oracle and pattern. -/
theorem pattern_matching_empty_not_required_witness :
    (fun _ : String => some Regexp.emptyMatch) "x*" = some Regexp.emptyMatch ∧
    (fun _ : String => some true) "x*" = some true ∧
    schemaForString (fun _ => some Regexp.emptyMatch) litFallback (fun _ => some true)
      (some { Pattern := some "x*" }) false =
      .ok (jsonschema.AllOf
        [Schema.ofAttrs { type_ := some "string",
                          pattern := some (writeECMA litFallback Regexp.emptyMatch) }],
        false) :=
  ⟨rfl, rfl,
    pattern_matching_empty_not_required (fun _ => some Regexp.emptyMatch) litFallback
      (fun _ => some true) "x*" Regexp.emptyMatch false rfl rfl⟩

/-- C4: the string translator's pattern-fragment merge policy: a single
collected fragment is set directly as the base schema's pattern; several
collected fragments each become a separate string-typed schema carrying only
that pattern, and everything (base, negated fragments, format disjunctions,
pattern schemas) is combined via conjunction. -/
theorem schemaForString_pattern_merge (parse : String → Option Regexp)
    (fb : Regexp → String) (probe : String → Option Bool) (r : StringRules)
    (ie : Bool) (s : Schema) (req : Bool)
    (h : schemaForString parse fb probe (some r) ie = .ok (s, req)) :
    s = match patternsOf (rewriteOf parse fb) r with
      | [p] => jsonschema.AllOf
          (Schema.ofAttrs { baseView r with pattern := some p } :: extrasView r)
      | ps => jsonschema.AllOf
          (Schema.ofAttrs (baseView r) :: (extrasView r ++ ps.map patternSchema)) := by
  cases hp : r.Pattern with
  | none =>
    simp only [schemaForString, hp] at h
    injection h with h'
    have hs : s = (mergeSchemas (stringScanPost r ie (stringScanPre r ie initScan))).1 := by
      rw [h']
    rw [hs, stringScanPre_eq, stringScanPost_eq]
    cases hc : r.Contains <;> cases hpf : r.Prefix_ <;> cases hsf : r.Suffix <;>
      simp [mergeSchemas, patternsOf, optFrag, hp, hc, hpf, hsf, baseView, extrasView,
        preBase, rewriteOf]
  | some p =>
    simp only [schemaForString, hp] at h
    cases hparse : parse p with
    | none => rw [hparse] at h; exact absurd h (by simp)
    | some t =>
      rw [hparse] at h
      cases hprobe : probe p with
      | none => rw [hprobe] at h; exact absurd h (by simp)
      | some m =>
        rw [hprobe] at h
        injection h with h'
        have hs : s = (mergeSchemas (stringScanPost r ie
            (stPattern (writeECMA fb t) m ie (stringScanPre r ie initScan)))).1 := by
          rw [h']
        rw [hs, stringScanPre_eq, stringScanPost_eq]
        cases hc : r.Contains <;> cases hpf : r.Prefix_ <;> cases hsf : r.Suffix <;>
          simp [mergeSchemas, patternsOf, optFrag, hp, hc, hpf, hsf, baseView,
            extrasView, preBase, rewriteOf, hparse, stPattern]

/-- Witness for C4 at the Prefix abc / Suffix xyz rule set. -/
theorem schemaForString_pattern_merge_witness :
    (schemaForString (fun _ => none) litFallback (fun _ => none)
        (some { Prefix_ := some "abc", Suffix := some "xyz" }) false =
      .ok (jsonschema.AllOf
        [Schema.ofAttrs { type_ := some "string" },
         patternSchema ("^" ++ quoteMeta "abc"),
         patternSchema (quoteMeta "xyz" ++ "$")], true)) ∧
    jsonschema.AllOf
        [Schema.ofAttrs { type_ := some "string" },
         patternSchema ("^" ++ quoteMeta "abc"),
         patternSchema (quoteMeta "xyz" ++ "$")] =
      match patternsOf (rewriteOf (fun _ => none) litFallback)
          { Prefix_ := some "abc", Suffix := some "xyz" } with
      | [p] => jsonschema.AllOf
          (Schema.ofAttrs
              { baseView { Prefix_ := some "abc", Suffix := some "xyz" } with
                pattern := some p }
            :: extrasView { Prefix_ := some "abc", Suffix := some "xyz" })
      | ps => jsonschema.AllOf
          (Schema.ofAttrs (baseView { Prefix_ := some "abc", Suffix := some "xyz" })
            :: (extrasView { Prefix_ := some "abc", Suffix := some "xyz" } ++
                ps.map patternSchema)) :=
  have h : schemaForString (fun _ => none) litFallback (fun _ => none)
      (some { Prefix_ := some "abc", Suffix := some "xyz" }) false =
    .ok (jsonschema.AllOf
      [Schema.ofAttrs { type_ := some "string" },
       patternSchema ("^" ++ quoteMeta "abc"),
       patternSchema (quoteMeta "xyz" ++ "$")], true) := rfl
  ⟨h, schemaForString_pattern_merge _ _ _ _ _ _ _ h⟩

/-- C6: at star, plus, quest and bounded-repeat nodes the rewriter wraps the
rendered child in a non-capturing group exactly when the child's operator
outranks a capture group (star/plus/quest/repeat/concat/alternate) or the
child is a literal run of more than one character; plain captures and
single-character literals (and every other lower-ranked operator) are
emitted unwrapped before the quantifier. -/
theorem quantified_child_wrapping (fb : Regexp → String) (sub : Regexp) (mn mx : Int) :
    writeECMA fb (.star sub) =
      (if claimWrapCond sub then "(?:" ++ writeECMA fb sub ++ ")"
       else writeECMA fb sub) ++ "*" ∧
    writeECMA fb (.plus sub) =
      (if claimWrapCond sub then "(?:" ++ writeECMA fb sub ++ ")"
       else writeECMA fb sub) ++ "+" ∧
    writeECMA fb (.quest sub) =
      (if claimWrapCond sub then "(?:" ++ writeECMA fb sub ++ ")"
       else writeECMA fb sub) ++ "?" ∧
    writeECMA fb (.repeat_ mn mx sub) =
      (if claimWrapCond sub then "(?:" ++ writeECMA fb sub ++ ")"
       else writeECMA fb sub) ++ repeatQuant mn mx := by
  have hw : wrapNeeded sub = claimWrapCond sub := by
    cases sub <;> simp [wrapNeeded, claimWrapCond, Regexp.op, Op.num, Regexp.runes]
  refine ⟨?_, ?_, ?_, ?_⟩ <;> simp [writeECMA, quantWrap, hw]

theorem writeConcatList_append (fb : Regexp → String) (xs ys : List Regexp) :
    writeConcatList fb (xs ++ ys) =
      writeConcatList fb xs ++ writeConcatList fb ys := by
  induction xs with
  | nil => simp [writeConcatList]
  | cons a as ih => simp [writeConcatList, ih, String.append_assoc]

/-- C7 counterexample: the star node's alternation child is rendered wrapped
in a non-capturing group even though its parent is not a concatenation; the
unwrapped rendering the claim predicts for non-concatenation parents would
read a|b* instead. -/
theorem alternation_wrap_counterexample :
    writeECMA litFallback (.star (.alternate [.literal ['a'], .literal ['b']])) =
      "(?:a|b)*" ∧
    writeECMA litFallback (.alternate [.literal ['a'], .literal ['b']]) ++ "*" ≠
      "(?:a|b)*" := by
  have halt : writeECMA litFallback (.alternate [.literal ['a'], .literal ['b']]) =
      "a|b" := by
    simp [writeECMA, writeAltList, litFallback]
  constructor
  · have hstar : writeECMA litFallback
        (.star (.alternate [.literal ['a'], .literal ['b']])) =
        quantWrap (.alternate [.literal ['a'], .literal ['b']])
          (writeECMA litFallback (.alternate [.literal ['a'], .literal ['b']])) ++
          "*" := by
      simp [writeECMA]
    rw [hstar, halt, quantWrap]
    decide
  · rw [halt]
    decide

/-- C7 (amended): an alternation that is a direct child of a concatenation is
rendered wrapped in a non-capturing group, and so is an alternation that is
the child of a star, plus, quest or bounded-repeat node (via the quantifier
grouping rule); only a capture parent renders its alternation child without
an added non-capturing group. -/
theorem alternation_wrapping (fb : Regexp → String) (xs ys subs : List Regexp)
    (mn mx : Int) :
    writeECMA fb (.concat (xs ++ .alternate subs :: ys)) =
      writeConcatList fb xs ++ ("(?:" ++ writeECMA fb (.alternate subs) ++ ")") ++
        writeConcatList fb ys ∧
    writeECMA fb (.star (.alternate subs)) =
      "(?:" ++ writeECMA fb (.alternate subs) ++ ")" ++ "*" ∧
    writeECMA fb (.plus (.alternate subs)) =
      "(?:" ++ writeECMA fb (.alternate subs) ++ ")" ++ "+" ∧
    writeECMA fb (.quest (.alternate subs)) =
      "(?:" ++ writeECMA fb (.alternate subs) ++ ")" ++ "?" ∧
    writeECMA fb (.repeat_ mn mx (.alternate subs)) =
      "(?:" ++ writeECMA fb (.alternate subs) ++ ")" ++ repeatQuant mn mx ∧
    writeECMA fb (.capture (.alternate subs)) =
      "(" ++ writeECMA fb (.alternate subs) ++ ")" := by
  refine ⟨?_, ?_, ?_, ?_, ?_, ?_⟩
  · rw [show writeECMA fb (.concat (xs ++ .alternate subs :: ys)) =
        writeConcatList fb (xs ++ .alternate subs :: ys) from by simp [writeECMA]]
    rw [writeConcatList_append]
    simp [writeConcatList, Regexp.op, String.append_assoc]
  · simp [writeECMA, quantWrap, wrapNeeded, Regexp.op, Op.num]
  · simp [writeECMA, quantWrap, wrapNeeded, Regexp.op, Op.num]
  · simp [writeECMA, quantWrap, wrapNeeded, Regexp.op, Op.num]
  · simp [writeECMA, quantWrap, wrapNeeded, Regexp.op, Op.num]
  · simp [writeECMA]

/-- C8: a bounded-repeat node renders its quantifier as min-only braces when
max equals min, as an open-ended min-comma form when max is negative
(unbounded), and as the min-comma-max form otherwise. -/
theorem repeat_quantifier_rendering (fb : Regexp → String) (mn mx : Int)
    (sub : Regexp) :
    writeECMA fb (.repeat_ mn mx sub) =
      quantWrap sub (writeECMA fb sub) ++
        (if mx = mn then "\x7b" ++ toString mn ++ "\x7d"
         else if mx < 0 then "\x7b" ++ toString mn ++ ",\x7d"
         else "\x7b" ++ toString mn ++ "," ++ toString mx ++ "\x7d") := by
  have hq : repeatQuant mn mx =
      (if mx = mn then "\x7b" ++ toString mn ++ "\x7d"
       else if mx < 0 then "\x7b" ++ toString mn ++ ",\x7d"
       else "\x7b" ++ toString mn ++ "," ++ toString mx ++ "\x7d") := by
    unfold repeatQuant
    by_cases h1 : mx = mn
    · simp [h1]
    · by_cases h2 : mx < 0
      · have h3 : ¬mx ≥ 0 := by omega
        simp [h1, h2, h3, String.append_assoc]
      · have h3 : mx ≥ 0 := by omega
        simp [h1, h2, h3, String.append_assoc]
  simp [writeECMA, hq]

/-- C9: TranslateScalarConstraints aborts exactly when the kind is neither
numeric nor Bool/Bytes/String, or a string Pattern rule's text fails to parse
in the source dialect, or the empty-match probe errors; every other input
returns a (SchemaNode, RequiredFlag) pair. -/
theorem schemaForScalar_error_iff
    (numeric : ProtoType → Option FieldConstraints → Schema × Bool)
    (parse : String → Option Regexp) (fb : Regexp → String)
    (probe : String → Option Bool) (scalar : ProtoType)
    (constraints : Option FieldConstraints) :
    isOkE (schemaForScalar numeric parse fb probe scalar constraints) =
      !scalarFailCond parse probe scalar constraints := by
  cases scalar
  case stringT =>
    cases hr : getStringRules constraints with
    | none =>
      simp [schemaForScalar, scalarFailCond, ProtoType.isNumeric, isOkE, hr,
        schemaForString]
    | some r =>
      cases hp : r.Pattern with
      | none =>
        simp [schemaForScalar, scalarFailCond, ProtoType.isNumeric, isOkE, hr, hp,
          schemaForString]
      | some p =>
        cases hparse : parse p with
        | none =>
          simp [schemaForScalar, scalarFailCond, ProtoType.isNumeric, isOkE, hr, hp,
            hparse, schemaForString]
        | some t =>
          cases hprobe : probe p with
          | none =>
            simp [schemaForScalar, scalarFailCond, ProtoType.isNumeric, isOkE, hr,
              hp, hparse, hprobe, schemaForString]
          | some m =>
            simp [schemaForScalar, scalarFailCond, ProtoType.isNumeric, isOkE, hr,
              hp, hparse, hprobe, schemaForString]
  all_goals
    simp [schemaForScalar, scalarFailCond, ProtoType.isNumeric, isOkE]

/-- C10: in the string translator, presence rather than non-emptiness of
Contains, Prefix and Suffix triggers their effects: an empty-string Contains
still contributes an empty pattern fragment, an empty-string Prefix the
anchor-only fragment, an empty-string Suffix the anchor-only fragment, and
each still sets required to the negation of ignore-empty; the bytes
translator instead tests these rules for non-emptiness, so empty-bytes
Contains, Prefix or Suffix never force required. -/
theorem string_presence_vs_bytes_nonEmptiness :
    ∀ (ie : Bool) (parse : String → Option Regexp) (fb : Regexp → String)
      (probe : String → Option Bool),
      (schemaForString parse fb probe (some { Contains := some "" }) ie =
        .ok (jsonschema.AllOf
          [Schema.ofAttrs { type_ := some "string", pattern := some "" }], !ie)) ∧
      (schemaForString parse fb probe (some { Prefix_ := some "" }) ie =
        .ok (jsonschema.AllOf
          [Schema.ofAttrs { type_ := some "string", pattern := some "^" }], !ie)) ∧
      (schemaForString parse fb probe (some { Suffix := some "" }) ie =
        .ok (jsonschema.AllOf
          [Schema.ofAttrs { type_ := some "string", pattern := some "$" }], !ie)) ∧
      (schemaForBytes (some { Contains := [] }) false).2 = false ∧
      (schemaForBytes (some { Prefix_ := [] }) false).2 = false ∧
      (schemaForBytes (some { Suffix := [] }) false).2 = false := by
  intro ie parse fb probe
  exact ⟨rfl, rfl, rfl, rfl, rfl, rfl⟩
